import Mathlib

/-!
Verification of the 3DTS BioThings parser (`src/parser.py`) against its
specification.

The parser is embedded shallowly: a Python line (as yielded by `for line in
file`) is a `List Char`, Python's `str.strip()`, `str.split(sep)`,
`str.replace('chr', '')` and `str.startswith('#')` are modelled by executable
functions below, and the per-line loop body of `load_data` is the total
function `processLine`.  Python's built-in fallible coercions `int(...)` and
`float(...)` are passed in as parameters `pint : Str → Option Int` and
`pfloat : Str → Option F` (`none` exactly where the builtin raises
`ValueError`, `F` the value type of `float`); every claim below holds for
every such coercion pair, and witnesses instantiate them with the concrete
sample coercion `pintD`.  The filesystem (`os.path.exists` / `open`) is an
oracle `fs : Str → Option (List Str)` mapping a path to the lines of the file
when it exists, and the wall clock (`time.time()`) is an oracle
`clock : Nat → ℚ`.  Log output is modelled as a list of `LogEvent`s carrying
the dynamic data of each `_logger` call.
-/

set_option autoImplicit false

/-- A Python string, as a list of characters. -/
abbrev Str := List Char

/-- `SOURCE_NAME = '3dts'` (src/parser.py line 13). -/
def SOURCE_NAME : Str := "3dts".toList

/-- `FILENAME = '3dts_loci_scores.sorted.tsv'` (src/parser.py line 14). -/
def FILENAME : Str := "3dts_loci_scores.sorted.tsv".toList

/-- `DELIMITER = '\t'` (src/parser.py line 15). -/
def DELIMITER : Char := '\t'

/-- Python `str` whitespace (the ASCII cases): space, tab, newline, carriage
return, vertical tab, form feed. -/
def pyIsSpace (c : Char) : Bool :=
  c = ' ' || c = '\t' || c = '\n' || c = '\r' || c = '\x0b' || c = '\x0c'

/-- The left half of Python `str.strip()`: drop leading whitespace. -/
def pyLStrip (s : Str) : Str := s.dropWhile pyIsSpace

/-- The right half of Python `str.strip()`: drop trailing whitespace. -/
def pyRStrip (s : Str) : Str := (s.reverse.dropWhile pyIsSpace).reverse

/-- Python `str.strip()`: drop whitespace from both ends. -/
def pyStrip (s : Str) : Str := pyLStrip (pyRStrip s)

/-- Python `str.split(sep)` with an explicit one-character separator: split at
every occurrence of `sep`, keeping empty fields (`''.split(sep) == ['']`). -/
def pySplit (sep : Char) : Str → List Str
  | [] => [[]]
  | c :: rest =>
    if c = sep then [] :: pySplit sep rest
    else
      match pySplit sep rest with
      | [] => [[c]]
      | f :: fs => (c :: f) :: fs

/-- Python `chrom.replace('chr', '')` (src/parser.py line 76): delete every
leftmost non-overlapping occurrence of the substring `chr`. -/
def removeChr : Str → Str
  | [] => []
  | 'c' :: 'h' :: 'r' :: rest => removeChr rest
  | c :: rest => c :: removeChr rest

/-- Python `line.startswith('#')` (src/parser.py line 62): the test is on the
raw line, before any stripping. -/
def startsHash : Str → Bool
  | '#' :: _ => true
  | _ => false

/-- Python `str(i)` for an `int`, as used by the f-string building `_id`. -/
def intToStr (i : Int) : Str := (toString i).toList

/-- One entry of the `scores` list (src/parser.py lines 92-99): `score` is the
value of Python `float(score)`, the remaining five fields are the raw field
strings. -/
structure ScoreEntry (F : Type) where
  score : F
  pdb_id : Str
  pdb_chain : Str
  uniprot_feature_name : Str
  pdb_residue_min : Str
  pdb_residue_max : Str
deriving DecidableEq

/-- The `variant` dictionary (src/parser.py lines 87-101). -/
structure Variant (F : Type) where
  chrom : Str
  start : Int
  «end» : Int
  scores : List (ScoreEntry F)
deriving DecidableEq

/-- The yielded dictionary `{"_id": _id, SOURCE_NAME: variant}`
(src/parser.py lines 103-106); the source-tagged key `'3dts'` is the field
`«3dts»`. -/
structure Record (F : Type) where
  _id : Str
  «3dts» : Variant F
deriving DecidableEq

/-- Why a line was skipped: the comment/blank check (line 62), the unpack
`ValueError` (lines 66-73), or the coercion `ValueError` (lines 75-83). -/
inductive SkipReason
  | commentOrBlank
  | unpackFail
  | castFail
deriving DecidableEq

/-- The dynamic data of each `_logger` call inside `load_data`. -/
inductive LogEvent
  | startReading
  | progress (count : Nat) (frac : ℚ) (skippedLen : Nat) (timeLeft : ℚ)
  | unpackError (count : Nat) (line : Str)
  | unpackGot (count : Nat) (fields : List Str)
  | castError (count : Nat)
  | completed (skippedLen fileLines : Nat)
  | skippedEcho (line : Str)
deriving DecidableEq

/-- `_id = f'chr{chrom}:g.{start}_{end}'` (src/parser.py line 85). -/
def mkId (chrom : Str) (start «end» : Int) : Str :=
  "chr".toList ++ chrom ++ ":g.".toList ++ intToStr start ++ "_".toList ++ intToStr «end»

/-- The body of `for line in file` in `load_data` (src/parser.py lines
62-106), everything after the progress bookkeeping: the raw-line comment/blank
check, the unpack of the stripped line split on `DELIMITER` into nine fields,
the coercions, and the built record.  Total: every fallible Python step is an
`Option`/branch, so the outcome is always a skip or a record. -/
def processLine {F : Type} (pint : Str → Option Int) (pfloat : Str → Option F)
    (line : Str) : Sum SkipReason (Record F) :=
  if startsHash line = true ∨ pyStrip line = [] then
    Sum.inl SkipReason.commentOrBlank
  else
    match pySplit DELIMITER (pyStrip line) with
    | [chrom, start, «end», score, pdb_id, pdb_chain, uniprot_feature_name,
       pdb_residue_min, pdb_residue_max] =>
      let chrom2 := removeChr chrom
      match pint start, pint «end», pfloat score with
      | some s, some e, some sc =>
        Sum.inr { _id := mkId chrom2 s e,
                  «3dts» := { chrom := chrom2, start := s, «end» := e,
                              scores := [{ score := sc, pdb_id := pdb_id,
                                           pdb_chain := pdb_chain,
                                           uniprot_feature_name := uniprot_feature_name,
                                           pdb_residue_min := pdb_residue_min,
                                           pdb_residue_max := pdb_residue_max }] } }
      | _, _, _ => Sum.inl SkipReason.castFail
    | _ => Sum.inl SkipReason.unpackFail

/-- The record a line contributes to the generator's output, if any. -/
def emitOf {F : Type} (pint : Str → Option Int) (pfloat : Str → Option F)
    (line : Str) : Option (Record F) :=
  match processLine pint pfloat line with
  | Sum.inr r => some r
  | Sum.inl _ => none

/-- Whether a line is appended to the `skipped` accumulator. -/
def isSkipLine {F : Type} (pint : Str → Option Int) (pfloat : Str → Option F)
    (line : Str) : Bool :=
  match processLine pint pfloat line with
  | Sum.inl _ => true
  | Sum.inr _ => false

/-- `_inspect_file` (src/parser.py lines 22-29): `i = 0`, `for i, l in
enumerate(f): pass`, `return i + 1` — the last 0-based line index plus one,
which is `1` even for an empty (zero-line) file. -/
def _inspect_file (lines : List Str) : Nat :=
  (match lines with
   | [] => 0
   | _ => lines.length - 1) + 1

/-- `ratio = count / file_lines` (src/parser.py line 56), in exact rational
arithmetic. -/
def progressFrac (count fileLines : Nat) : ℚ :=
  (count : ℚ) / (fileLines : ℚ)

/-- `time_left`'s seconds value `(time.time() - start_time) * (1 - ratio) / ratio`
(src/parser.py line 57). -/
def timeLeftOf (now t0 frac : ℚ) : ℚ := (now - t0) * (1 - frac) / frac

/-- The `_logger.error` calls a skipped line produces (src/parser.py lines
70-71 and 81): none for a comment/blank skip, the two unpack messages for an
unpack failure, one cast message for a coercion failure. -/
def skipLogs (r : SkipReason) (count : Nat) (line : Str) : List LogEvent :=
  match r with
  | SkipReason.commentOrBlank => []
  | SkipReason.unpackFail =>
      [LogEvent.unpackError count line,
       LogEvent.unpackGot count (pySplit DELIMITER (pyStrip line))]
  | SkipReason.castFail => [LogEvent.castError count]

/-- The loop state of `load_data`: `count`, the `skipped` accumulator, the
records the generator has yielded so far, and the log stream. -/
structure LoopState (F : Type) where
  count : Nat
  skipped : List Str
  records : List (Record F)
  logs : List LogEvent
deriving DecidableEq

/-- One full iteration of `for line in file` (src/parser.py lines 54-106):
advance `count`, compute `ratio` and `time_left`, log the progress milestone
every 10000 lines, then either append the line to `skipped` (with its error
logs) or yield one record. -/
def stepLine {F : Type} (pint : Str → Option Int) (pfloat : Str → Option F)
    (fileLines : Nat) (t0 : ℚ) (clock : Nat → ℚ)
    (st : LoopState F) (line : Str) : LoopState F :=
  let count := st.count + 1
  let frac := progressFrac count fileLines
  let tl := timeLeftOf (clock count) t0 frac
  let logs1 := if count % 10000 = 0
    then st.logs ++ [LogEvent.progress count frac st.skipped.length tl]
    else st.logs
  match processLine pint pfloat line with
  | Sum.inl r =>
      { count := count, skipped := st.skipped ++ [line], records := st.records,
        logs := logs1 ++ skipLogs r count line }
  | Sum.inr rec =>
      { count := count, skipped := st.skipped, records := st.records ++ [rec],
        logs := logs1 }

/-- The state before the loop (src/parser.py lines 50-53). -/
def initState (F : Type) : LoopState F :=
  { count := 0, skipped := [], records := [], logs := [LogEvent.startReading] }

/-- The streaming part of `load_data` once the file is open (src/parser.py
lines 47-109): count the file's lines, run the loop over every line, then log
the completion summary and echo every skipped line. -/
def loadLines {F : Type} (pint : Str → Option Int) (pfloat : Str → Option F)
    (lines : List Str) (clock : Nat → ℚ) : LoopState F :=
  let fileLines := _inspect_file lines
  let t0 := clock 0
  let st := lines.foldl (stepLine pint pfloat fileLines t0 clock) (initState F)
  { st with logs := st.logs ++ [LogEvent.completed st.skipped.length fileLines]
                      ++ st.skipped.map LogEvent.skippedEcho }

/-- `FILE_NOT_FOUND_ERROR.format(input_file)` (src/parser.py lines 6 and 45). -/
def FILE_NOT_FOUND_ERROR (path : Str) : Str :=
  "Cannot find input file: ".toList ++ path

/-- Python `os.path.join(data_folder, FILENAME)` for two posix components. -/
def pyJoin (a b : Str) : Str :=
  match b with
  | '/' :: _ => b
  | _ =>
    if a = [] then b
    else if a.getLast? = some '/' then a ++ b
    else a ++ '/' :: b

/-- `load_data` (src/parser.py lines 32-109): raise the file-not-found error
when `os.path.exists` fails — before any streaming — and otherwise run the
streaming loop over the file's lines. -/
def load_data {F : Type} (pint : Str → Option Int) (pfloat : Str → Option F)
    (data_folder : Str) (fs : Str → Option (List Str)) (clock : Nat → ℚ) :
    Except Str (LoopState F) :=
  let input_file := pyJoin data_folder FILENAME
  match fs input_file with
  | none => Except.error (FILE_NOT_FOUND_ERROR input_file)
  | some lines => Except.ok (loadLines pint pfloat lines clock)

/-- A concrete sample coercion for witnesses: base-10 digits only. -/
def natDigits (s : Str) : Option Nat :=
  if s = [] then none
  else s.foldl
    (fun acc c => acc.bind fun n =>
      if c.isDigit then some (n * 10 + (c.toNat - 48)) else none)
    (some 0)

/-- A concrete sample `int(...)`/`float(...)` stand-in for witnesses: an
optional `-` sign followed by digits. -/
def pintD (s : Str) : Option Int :=
  match s with
  | '-' :: rest => (natDigits rest).map (fun n => -(n : Int))
  | _ => (natDigits s).map (fun n => (n : Int))

/-! ### Helper lemmas about the string model -/

/-- The number of occurrences of a separator character in a string. -/
def countSep (sep : Char) : Str → Nat
  | [] => 0
  | c :: rest => (if c = sep then 1 else 0) + countSep sep rest

/-- Joining fields back with a separator, the inverse direction of `pySplit`. -/
def joinSep (sep : Char) : List Str → Str
  | [] => []
  | [f] => f
  | f :: fs => f ++ sep :: joinSep sep fs

theorem countSep_append (sep : Char) (a b : Str) :
    countSep sep (a ++ b) = countSep sep a + countSep sep b := by
  induction a with
  | nil => simp [countSep]
  | cons c a ih => simp [countSep, ih]; omega

theorem countSep_reverse (sep : Char) (s : Str) :
    countSep sep s.reverse = countSep sep s := by
  induction s with
  | nil => rfl
  | cons c s ih =>
    simp [List.reverse_cons, countSep_append, countSep, ih]; omega

theorem countSep_dropWhile_le (sep : Char) (p : Char → Bool) (s : Str) :
    countSep sep (s.dropWhile p) ≤ countSep sep s := by
  induction s with
  | nil => simp
  | cons c s ih =>
    rw [List.dropWhile_cons]
    by_cases h : p c = true
    · rw [if_pos h]
      refine le_trans ih ?_
      simp [countSep]
    · rw [if_neg h]

theorem pySplit_ne_nil (sep : Char) (s : Str) : pySplit sep s ≠ [] := by
  induction s with
  | nil => simp [pySplit]
  | cons c rest ih =>
    unfold pySplit
    by_cases h : c = sep
    · simp [h]
    · rw [if_neg h]
      cases hps : pySplit sep rest with
      | nil => exact absurd hps ih
      | cons f fs => simp

theorem length_pySplit (sep : Char) (s : Str) :
    (pySplit sep s).length = countSep sep s + 1 := by
  induction s with
  | nil => simp [pySplit, countSep]
  | cons c rest ih =>
    unfold pySplit countSep
    by_cases h : c = sep
    · simp [h, ih]
      omega
    · rw [if_neg h, if_neg h]
      cases hps : pySplit sep rest with
      | nil => exact absurd hps (pySplit_ne_nil sep rest)
      | cons f fs =>
        rw [hps] at ih
        simp at ih ⊢
        omega

theorem joinSep_cons_head (sep : Char) (c : Char) (f : Str) (fs : List Str) :
    joinSep sep ((c :: f) :: fs) = c :: joinSep sep (f :: fs) := by
  cases fs <;> simp [joinSep]

theorem joinSep_pySplit (sep : Char) (s : Str) : joinSep sep (pySplit sep s) = s := by
  induction s with
  | nil => rfl
  | cons c rest ih =>
    unfold pySplit
    by_cases h : c = sep
    · rw [if_pos h]
      cases hps : pySplit sep rest with
      | nil => exact absurd hps (pySplit_ne_nil sep rest)
      | cons f fs =>
        rw [hps] at ih
        show joinSep sep ([] :: f :: fs) = c :: rest
        simp [joinSep, ih, h]
    · rw [if_neg h]
      cases hps : pySplit sep rest with
      | nil => exact absurd hps (pySplit_ne_nil sep rest)
      | cons f fs =>
        rw [hps] at ih
        rw [joinSep_cons_head, ih]

theorem dropWhile_append_all {p : Char → Bool} (u t : Str)
    (h : ∀ c ∈ u, p c = true) : (u ++ t).dropWhile p = t.dropWhile p := by
  induction u with
  | nil => rfl
  | cons a u ih =>
    have ha : p a = true := h a (List.mem_cons_self a u)
    rw [List.cons_append, List.dropWhile_cons, if_pos ha]
    exact ih (fun c hc => h c (List.mem_cons_of_mem a hc))

theorem pyRStrip_append_ws (a w : Str) (h : ∀ c ∈ w, pyIsSpace c = true) :
    pyRStrip (a ++ w) = pyRStrip a := by
  unfold pyRStrip
  rw [List.reverse_append, dropWhile_append_all]
  intro c hc
  exact h c (List.mem_reverse.mp hc)

theorem countSep_pyRStrip_le (sep : Char) (s : Str) :
    countSep sep (pyRStrip s) ≤ countSep sep s := by
  unfold pyRStrip
  rw [countSep_reverse]
  exact le_trans (countSep_dropWhile_le sep pyIsSpace s.reverse)
    (le_of_eq (countSep_reverse sep s))

theorem countSep_pyStrip_le (sep : Char) (s : Str) :
    countSep sep (pyStrip s) ≤ countSep sep s := by
  unfold pyStrip pyLStrip
  exact le_trans (countSep_dropWhile_le sep pyIsSpace (pyRStrip s))
    (countSep_pyRStrip_le sep s)

theorem removeChr_chr_cons (v : Str) :
    removeChr ('c' :: 'h' :: 'r' :: v) = removeChr v := rfl

theorem removeChr_cons_ne (c : Char) (l : Str) (h : c ≠ 'c') :
    removeChr (c :: l) = c :: removeChr l := by
  rw [removeChr.eq_def]
  split
  · rename_i heq
    exact absurd heq (by simp)
  · rename_i heq
    rw [List.cons.injEq] at heq
    exact absurd heq.1 h
  · rename_i heq
    rw [List.cons.injEq] at heq
    obtain ⟨h1, h2⟩ := heq
    subst h1
    subst h2
    rfl

theorem removeChr_mid (u v : Str) (h : 'c' ∉ u) :
    removeChr (u ++ 'c' :: 'h' :: 'r' :: v) = u ++ removeChr v := by
  induction u with
  | nil => simpa using removeChr_chr_cons v
  | cons a u ih =>
    have ha : a ≠ 'c' := fun hh => h (hh ▸ List.mem_cons_self a u)
    rw [List.cons_append, removeChr_cons_ne a _ ha,
      ih (fun hc => h (List.mem_cons_of_mem a hc)), List.cons_append]

/-! ### Helper lemmas about the loop -/

theorem stepLine_records {F : Type} (pint : Str → Option Int) (pfloat : Str → Option F)
    (fileLines : Nat) (t0 : ℚ) (clock : Nat → ℚ) (st : LoopState F) (line : Str) :
    (stepLine pint pfloat fileLines t0 clock st line).records
      = st.records ++ (emitOf pint pfloat line).toList := by
  unfold stepLine emitOf
  cases h : processLine pint pfloat line <;> simp [h]

theorem stepLine_skipped {F : Type} (pint : Str → Option Int) (pfloat : Str → Option F)
    (fileLines : Nat) (t0 : ℚ) (clock : Nat → ℚ) (st : LoopState F) (line : Str) :
    (stepLine pint pfloat fileLines t0 clock st line).skipped
      = st.skipped ++ (if isSkipLine pint pfloat line then [line] else []) := by
  unfold stepLine isSkipLine
  cases h : processLine pint pfloat line <;> simp [h]

theorem stepLine_count {F : Type} (pint : Str → Option Int) (pfloat : Str → Option F)
    (fileLines : Nat) (t0 : ℚ) (clock : Nat → ℚ) (st : LoopState F) (line : Str) :
    (stepLine pint pfloat fileLines t0 clock st line).count = st.count + 1 := by
  unfold stepLine
  cases h : processLine pint pfloat line <;> simp [h]

theorem foldl_stepLine_records {F : Type} (pint : Str → Option Int) (pfloat : Str → Option F)
    (fileLines : Nat) (t0 : ℚ) (clock : Nat → ℚ) (lines : List Str) (st : LoopState F) :
    (lines.foldl (stepLine pint pfloat fileLines t0 clock) st).records
      = st.records ++ lines.filterMap (emitOf pint pfloat) := by
  induction lines generalizing st with
  | nil => simp
  | cons l ls ih =>
    rw [List.foldl_cons, ih, stepLine_records]
    cases h : emitOf pint pfloat l <;> simp [h]

theorem foldl_stepLine_skipped {F : Type} (pint : Str → Option Int) (pfloat : Str → Option F)
    (fileLines : Nat) (t0 : ℚ) (clock : Nat → ℚ) (lines : List Str) (st : LoopState F) :
    (lines.foldl (stepLine pint pfloat fileLines t0 clock) st).skipped
      = st.skipped ++ lines.filter (isSkipLine pint pfloat) := by
  induction lines generalizing st with
  | nil => simp
  | cons l ls ih =>
    rw [List.foldl_cons, ih, stepLine_skipped]
    cases h : isSkipLine pint pfloat l <;> simp [h, List.filter_cons]

theorem loadLines_records {F : Type} (pint : Str → Option Int) (pfloat : Str → Option F)
    (lines : List Str) (clock : Nat → ℚ) :
    (loadLines pint pfloat lines clock).records = lines.filterMap (emitOf pint pfloat) := by
  unfold loadLines
  rw [foldl_stepLine_records]
  simp [initState]

theorem loadLines_skipped {F : Type} (pint : Str → Option Int) (pfloat : Str → Option F)
    (lines : List Str) (clock : Nat → ℚ) :
    (loadLines pint pfloat lines clock).skipped = lines.filter (isSkipLine pint pfloat) := by
  unfold loadLines
  rw [foldl_stepLine_skipped]
  simp [initState]

theorem emitOf_isSome_iff {F : Type} (pint : Str → Option Int) (pfloat : Str → Option F)
    (line : Str) : (emitOf pint pfloat line).isSome = !(isSkipLine pint pfloat line) := by
  unfold emitOf isSkipLine
  cases h : processLine pint pfloat line <;> simp

theorem length_filterMap_add_filter {α β : Type} (f : α → Option β) (p : α → Bool)
    (h : ∀ x, (f x).isSome = !(p x)) (l : List α) :
    (l.filterMap f).length + (l.filter p).length = l.length := by
  induction l with
  | nil => simp
  | cons a l ih =>
    have ha := h a
    cases hf : f a <;> cases hp : p a <;>
      rw [hf, hp] at ha <;> simp [List.filterMap_cons, List.filter_cons, hf, hp] at ha ⊢ <;>
      omega

theorem processLine_commentOrBlank {F : Type} (pint : Str → Option Int)
    (pfloat : Str → Option F) (line : Str)
    (h : startsHash line = true ∨ pyStrip line = []) :
    processLine pint pfloat line = Sum.inl SkipReason.commentOrBlank := by
  unfold processLine
  rw [if_pos h]

theorem processLine_not9 {F : Type} (pint : Str → Option Int) (pfloat : Str → Option F)
    (line : Str) (hhash : startsHash line = false) (hne : pyStrip line ≠ [])
    (hlen : (pySplit DELIMITER (pyStrip line)).length ≠ 9) :
    processLine pint pfloat line = Sum.inl SkipReason.unpackFail := by
  have hcond : ¬ (startsHash line = true ∨ pyStrip line = []) := by
    rintro (hc | hc)
    · rw [hhash] at hc
      exact Bool.false_ne_true hc
    · exact hne hc
  unfold processLine
  rw [if_neg hcond]
  split
  · rename_i heq
    refine absurd ?_ hlen
    rw [heq]
    rfl
  · rfl

theorem processLine_ok {F : Type} (pint : Str → Option Int) (pfloat : Str → Option F)
    (line chrom start end_ score p1 p2 p3 p4 p5 : Str) (si ei : Int) (sf : F)
    (hhash : startsHash line = false)
    (hsplit : pySplit DELIMITER (pyStrip line)
      = [chrom, start, end_, score, p1, p2, p3, p4, p5])
    (hs : pint start = some si) (he : pint end_ = some ei)
    (hf : pfloat score = some sf) :
    processLine pint pfloat line = Sum.inr
      { _id := mkId (removeChr chrom) si ei,
        «3dts» := { chrom := removeChr chrom, start := si, «end» := ei,
                    scores := [{ score := sf, pdb_id := p1, pdb_chain := p2,
                                 uniprot_feature_name := p3, pdb_residue_min := p4,
                                 pdb_residue_max := p5 }] } } := by
  have hne : pyStrip line ≠ [] := by
    intro hc
    rw [hc] at hsplit
    simp [pySplit] at hsplit
  have hcond : ¬ (startsHash line = true ∨ pyStrip line = []) := by
    rintro (hc | hc)
    · rw [hhash] at hc
      exact Bool.false_ne_true hc
    · exact hne hc
  unfold processLine
  rw [if_neg hcond, hsplit]
  simp only [hs, he, hf]

/-! ### Witness inputs -/

/-- A constant clock for witnesses. -/
def zeroClock : Nat → ℚ := fun _ => 0

/-- A well-formed data line (with its trailing newline, as `for line in file`
yields it). -/
def lineW1 : Str := "1\t2\t3\t4\ta\tb\tc\td\te\n".toList

/-- A line whose first character is whitespace and whose first character after
trimming is `#`, yet which parses as nine well-formed fields. -/
def lineC3 : Str := " #1\t2\t3\t4\ta\tb\tc\td\te".toList

/-- A plain comment line. -/
def lineC3w : Str := "# comment line\n".toList

/-- A line with too few fields. -/
def lineC6w : Str := "a\tb\n".toList

/-- A valid data line whose chromosome field holds `chr` mid-string. -/
def lineC5w : Str := "Xchr7\t2\t3\t4\ta\tb\tc\td\te\n".toList

/-- Eight tabs: nine raw tab-separated fields, all of them empty. -/
def lineC9 : Str := "\t\t\t\t\t\t\t\t".toList

/-- Nine raw fields whose ninth is empty (the line ends with a tab). -/
def lineC9w : Str := "a\tb\tc\td\te\tf\tg\th\t".toList

/-! ### The claims -/

/-- C1: a line that is not a raw comment line ("valid" in the spec's words)
and whose trimmed form splits on the tab delimiter into exactly nine fields
whose start/end/score fields coerce successfully yields exactly one record:
its `_id` is `chr{stripped-chrom}:g.{start}_{end}` with the parsed integers,
and its `'3dts'` sub-object carries the stripped chrom string, the start and
end integers, and a one-entry `scores` list holding the coerced score and the
five remaining raw field strings. -/
theorem c1_valid_line_one_record {F : Type} (pint : Str → Option Int)
    (pfloat : Str → Option F) (line chrom start end_ score p1 p2 p3 p4 p5 : Str)
    (si ei : Int) (sf : F) (clock : Nat → ℚ)
    (hhash : startsHash line = false)
    (hsplit : pySplit DELIMITER (pyStrip line)
      = [chrom, start, end_, score, p1, p2, p3, p4, p5])
    (hs : pint start = some si) (he : pint end_ = some ei)
    (hf : pfloat score = some sf) :
    ∃ rec : Record F,
      processLine pint pfloat line = Sum.inr rec
      ∧ (loadLines pint pfloat [line] clock).records = [rec]
      ∧ rec._id = "chr".toList ++ removeChr chrom ++ ":g.".toList
          ++ intToStr si ++ "_".toList ++ intToStr ei
      ∧ rec.«3dts».chrom = removeChr chrom
      ∧ rec.«3dts».start = si
      ∧ rec.«3dts».«end» = ei
      ∧ rec.«3dts».scores =
          [{ score := sf, pdb_id := p1, pdb_chain := p2,
             uniprot_feature_name := p3, pdb_residue_min := p4,
             pdb_residue_max := p5 }] := by
  have hp := processLine_ok pint pfloat line chrom start end_ score p1 p2 p3 p4 p5
    si ei sf hhash hsplit hs he hf
  refine ⟨_, hp, ?_, rfl, rfl, rfl, rfl, rfl⟩
  rw [loadLines_records]
  simp [emitOf, hp]

/-- C1 witness: the theorem applied to the concrete line
`1\t2\t3\t4\ta\tb\tc\td\te\n` with the sample coercion. -/
theorem c1_witness :
    ∃ rec : Record Int,
      processLine pintD pintD lineW1 = Sum.inr rec
      ∧ (loadLines pintD pintD [lineW1] zeroClock).records = [rec]
      ∧ rec._id = "chr".toList ++ removeChr "1".toList ++ ":g.".toList
          ++ intToStr 2 ++ "_".toList ++ intToStr 3
      ∧ rec.«3dts».chrom = removeChr "1".toList
      ∧ rec.«3dts».start = 2
      ∧ rec.«3dts».«end» = 3
      ∧ rec.«3dts».scores =
          [{ score := (4 : Int), pdb_id := "a".toList,
             pdb_chain := "b".toList, uniprot_feature_name := "c".toList,
             pdb_residue_min := "d".toList, pdb_residue_max := "e".toList }] :=
  c1_valid_line_one_record pintD pintD lineW1 "1".toList "2".toList "3".toList
    "4".toList "a".toList "b".toList "c".toList "d".toList "e".toList 2 3 4
    zeroClock (by decide) (by decide) (by decide) (by decide) (by decide)

/-- C2: over any input stream, every consumed line either joins the skip
accumulator or yields exactly one record — never both, never neither — so the
number of skipped lines plus the number of emitted records equals the number
of input lines. -/
theorem c2_skipped_plus_emitted_eq_total {F : Type} (pint : Str → Option Int)
    (pfloat : Str → Option F) (lines : List Str) (clock : Nat → ℚ) :
    (loadLines pint pfloat lines clock).records.length
        + (loadLines pint pfloat lines clock).skipped.length = lines.length
    ∧ ∀ line : Str,
        (isSkipLine pint pfloat line = true ∧ emitOf pint pfloat line = none)
        ∨ (isSkipLine pint pfloat line = false
            ∧ ∃ r, emitOf pint pfloat line = some r) := by
  constructor
  · rw [loadLines_records, loadLines_skipped]
    exact length_filterMap_add_filter _ _ (emitOf_isSome_iff pint pfloat) lines
  · intro line
    unfold isSkipLine emitOf
    cases h : processLine pint pfloat line
    · exact Or.inl ⟨rfl, rfl⟩
    · exact Or.inr ⟨rfl, _, rfl⟩

/-- C3 counterexample: the line `" #1\t2\t3\t4\ta\tb\tc\td\te"` starts with
`#` after trimming, yet `load_data` does not skip it — it emits one record for
it — because the source tests `line.startswith('#')` on the raw, untrimmed
line. -/
theorem c3_counterexample :
    startsHash (pyStrip lineC3) = true
    ∧ (processLine pintD pintD lineC3).isRight = true
    ∧ (loadLines pintD pintD [lineC3] zeroClock).records.length = 1
    ∧ (loadLines pintD pintD [lineC3] zeroClock).skipped = [] := by decide

/-- C3 (amended): for every input line that is empty after trimming
whitespace, or whose raw (untrimmed) form starts with `#`, `load_data` emits
zero records and records the line as skipped, classified comment-or-blank.  (A
line whose `#` only appears after leading whitespace is not treated as a
comment.) -/
theorem c3_comment_or_blank_skipped {F : Type} (pint : Str → Option Int)
    (pfloat : Str → Option F) (line : Str) (clock : Nat → ℚ)
    (h : startsHash line = true ∨ pyStrip line = []) :
    processLine pint pfloat line = Sum.inl SkipReason.commentOrBlank
    ∧ (loadLines pint pfloat [line] clock).records = []
    ∧ (loadLines pint pfloat [line] clock).skipped = [line] := by
  have hp := processLine_commentOrBlank pint pfloat line h
  refine ⟨hp, ?_, ?_⟩
  · rw [loadLines_records]
    simp [emitOf, hp]
  · rw [loadLines_skipped]
    simp [isSkipLine, hp]

/-- C3 witness: the amended theorem applied to a plain comment line. -/
theorem c3_witness :
    processLine pintD pintD lineC3w = Sum.inl SkipReason.commentOrBlank
    ∧ (loadLines pintD pintD [lineC3w] zeroClock).records = []
    ∧ (loadLines pintD pintD [lineC3w] zeroClock).skipped = [lineC3w] :=
  c3_comment_or_blank_skipped pintD pintD lineC3w zeroClock (Or.inl (by decide))

/-- C4: per-line processing is total — every line's outcome is a skip or a
record, every coercion/unpack failure having been converted into a skip — and
the only error `load_data` as a whole can produce is the startup
file-not-found error, produced exactly when the input path does not exist and
before any streaming result. -/
theorem c4_errors_confined {F : Type} (pint : Str → Option Int)
    (pfloat : Str → Option F) :
    (∀ line : Str, (∃ r, processLine pint pfloat line = Sum.inl r)
        ∨ (∃ rec, processLine pint pfloat line = Sum.inr rec))
    ∧ ∀ (data_folder : Str) (fs : Str → Option (List Str)) (clock : Nat → ℚ),
        (load_data pint pfloat data_folder fs clock
            = Except.error (FILE_NOT_FOUND_ERROR (pyJoin data_folder FILENAME))
          ↔ fs (pyJoin data_folder FILENAME) = none)
        ∧ ((∃ st, load_data pint pfloat data_folder fs clock = Except.ok st)
          ↔ ∃ ls, fs (pyJoin data_folder FILENAME) = some ls) := by
  constructor
  · intro line
    cases h : processLine pint pfloat line
    · exact Or.inl ⟨_, rfl⟩
    · exact Or.inr ⟨_, rfl⟩
  · intro data_folder fs clock
    unfold load_data
    cases h : fs (pyJoin data_folder FILENAME) <;> simp [h]

/-- C5: the chromosome cleanup `chrom.replace('chr', '')` removes occurrences
of the substring `chr` anywhere in the field — here: any occurrence after a
`c`-free prefix — not only a leading prefix, and the emitted record's `chrom`
and `_id` are built from that post-replacement value. -/
theorem c5_chr_removed_everywhere {F : Type} (pint : Str → Option Int)
    (pfloat : Str → Option F)
    (line chrom start end_ score p1 p2 p3 p4 p5 u v : Str) (si ei : Int) (sf : F)
    (hu : 'c' ∉ u)
    (hhash : startsHash line = false)
    (hsplit : pySplit DELIMITER (pyStrip line)
      = [chrom, start, end_, score, p1, p2, p3, p4, p5])
    (hs : pint start = some si) (he : pint end_ = some ei)
    (hf : pfloat score = some sf) :
    removeChr (u ++ 'c' :: 'h' :: 'r' :: v) = u ++ removeChr v
    ∧ ∃ rec : Record F,
        processLine pint pfloat line = Sum.inr rec
        ∧ rec.«3dts».chrom = removeChr chrom
        ∧ rec._id = "chr".toList ++ removeChr chrom ++ ":g.".toList
            ++ intToStr si ++ "_".toList ++ intToStr ei := by
  refine ⟨removeChr_mid u v hu, ?_⟩
  have hp := processLine_ok pint pfloat line chrom start end_ score p1 p2 p3 p4 p5
    si ei sf hhash hsplit hs he hf
  exact ⟨_, hp, rfl, rfl⟩

/-- C5 witness: a chromosome field `Xchr7` whose `chr` sits mid-string, on the
concrete line `Xchr7\t2\t3\t4\ta\tb\tc\td\te\n`. -/
theorem c5_witness :
    removeChr ("X".toList ++ 'c' :: 'h' :: 'r' :: "7".toList)
      = "X".toList ++ removeChr "7".toList
    ∧ ∃ rec : Record Int,
        processLine pintD pintD lineC5w = Sum.inr rec
        ∧ rec.«3dts».chrom = removeChr "Xchr7".toList
        ∧ rec._id = "chr".toList ++ removeChr "Xchr7".toList ++ ":g.".toList
            ++ intToStr 2 ++ "_".toList ++ intToStr 3 :=
  c5_chr_removed_everywhere pintD pintD lineC5w "Xchr7".toList "2".toList
    "3".toList "4".toList "a".toList "b".toList "c".toList "d".toList "e".toList
    "X".toList "7".toList 2 3 4 (by decide) (by decide) (by decide) (by decide)
    (by decide) (by decide)

/-- C6: a non-comment, non-blank line whose trimmed form does not split on the
tab delimiter into exactly nine fields (fewer or more) is skipped — classified
as the unpack (field-count) failure — and contributes no record. -/
theorem c6_field_count_mismatch_skipped {F : Type} (pint : Str → Option Int)
    (pfloat : Str → Option F) (line : Str) (clock : Nat → ℚ)
    (hhash : startsHash line = false) (hne : pyStrip line ≠ [])
    (hlen : (pySplit DELIMITER (pyStrip line)).length ≠ 9) :
    processLine pint pfloat line = Sum.inl SkipReason.unpackFail
    ∧ (loadLines pint pfloat [line] clock).records = []
    ∧ (loadLines pint pfloat [line] clock).skipped = [line] := by
  have hp := processLine_not9 pint pfloat line hhash hne hlen
  refine ⟨hp, ?_, ?_⟩
  · rw [loadLines_records]
    simp [emitOf, hp]
  · rw [loadLines_skipped]
    simp [isSkipLine, hp]

/-- C6 witness: the theorem applied to the two-field line `a\tb\n`. -/
theorem c6_witness :
    processLine pintD pintD lineC6w = Sum.inl SkipReason.unpackFail
    ∧ (loadLines pintD pintD [lineC6w] zeroClock).records = []
    ∧ (loadLines pintD pintD [lineC6w] zeroClock).skipped = [lineC6w] :=
  c6_field_count_mismatch_skipped pintD pintD lineC6w zeroClock (by decide)
    (by decide) (by decide)

/-- C7: the emitted record stream is exactly the in-order `filterMap` of the
per-line emission over the input lines — so a record from an earlier line is
emitted before one from a later line, with no reordering or buffering-ahead —
and the skip accumulator is exactly the in-order `filter` of the skipped
lines. -/
theorem c7_emission_in_input_order {F : Type} (pint : Str → Option Int)
    (pfloat : Str → Option F) (lines : List Str) (clock : Nat → ℚ) :
    (loadLines pint pfloat lines clock).records
        = lines.filterMap (emitOf pint pfloat)
    ∧ (loadLines pint pfloat lines clock).skipped
        = lines.filter (isSkipLine pint pfloat) :=
  ⟨loadLines_records pint pfloat lines clock,
   loadLines_skipped pint pfloat lines clock⟩

/-- C8: the record stream and the skip accumulator do not depend on the wall
clock — two runs over the same lines with different clocks produce identical
records in identical order and identical skips (only the logged progress
events can differ) — and likewise through `load_data` as a whole, whose
error outcome is also clock-independent. -/
theorem c8_deterministic_record_stream {F : Type} (pint : Str → Option Int)
    (pfloat : Str → Option F) (data_folder : Str) (fs : Str → Option (List Str))
    (clock1 clock2 : Nat → ℚ) :
    ((load_data pint pfloat data_folder fs clock1).toOption.map
        (fun st => (st.records, st.skipped)))
      = ((load_data pint pfloat data_folder fs clock2).toOption.map
        (fun st => (st.records, st.skipped)))
    ∧ ((load_data pint pfloat data_folder fs clock1).isOk
      = (load_data pint pfloat data_folder fs clock2).isOk)
    ∧ ∀ lines : List Str,
        (loadLines pint pfloat lines clock1).records
            = (loadLines pint pfloat lines clock2).records
        ∧ (loadLines pint pfloat lines clock1).skipped
            = (loadLines pint pfloat lines clock2).skipped := by
  have hr : ∀ lines : List Str,
      (loadLines (F := F) pint pfloat lines clock1).records
        = (loadLines pint pfloat lines clock2).records := by
    intro lines
    rw [loadLines_records, loadLines_records]
  have hk : ∀ lines : List Str,
      (loadLines (F := F) pint pfloat lines clock1).skipped
        = (loadLines pint pfloat lines clock2).skipped := by
    intro lines
    rw [loadLines_skipped, loadLines_skipped]
  refine ⟨?_, ?_, fun lines => ⟨hr lines, hk lines⟩⟩
  · cases h : fs (pyJoin data_folder FILENAME) with
    | none => simp [load_data, h]
    | some lines => simp [load_data, h, Except.toOption, hr lines, hk lines]
  · cases h : fs (pyJoin data_folder FILENAME) <;> simp [load_data, h, Except.isOk, Except.toBool]

/-- C9 counterexample: eight tabs form a non-comment line of exactly nine raw
tab-separated fields with an empty ninth field, yet it is skipped as
comment-or-blank (its trimmed form is empty), not as a field-count
mismatch. -/
theorem c9_counterexample :
    startsHash lineC9 = false
    ∧ pySplit DELIMITER lineC9 = [[], [], [], [], [], [], [], [], []]
    ∧ processLine pintD pintD lineC9 = Sum.inl SkipReason.commentOrBlank
    ∧ processLine pintD pintD lineC9 ≠ Sum.inl SkipReason.unpackFail := by
  decide

/-- C9 (amended): a non-comment line whose raw form splits into exactly nine
tab-separated fields with an empty-or-whitespace-only ninth field is always
skipped and never emitted; when the whole line is not itself whitespace-only
the skip is the field-count mismatch (trimming deletes the trailing
separator, so the trimmed split has fewer than nine fields), and a fully
whitespace line is instead skipped as comment-or-blank. -/
theorem c9_trailing_whitespace_ninth_field {F : Type} (pint : Str → Option Int)
    (pfloat : Str → Option F) (line f1 f2 f3 f4 f5 f6 f7 f8 f9 : Str)
    (clock : Nat → ℚ)
    (hhash : startsHash line = false)
    (hsplit : pySplit DELIMITER line = [f1, f2, f3, f4, f5, f6, f7, f8, f9])
    (hws : ∀ c ∈ f9, pyIsSpace c = true) :
    (∃ r, processLine pint pfloat line = Sum.inl r)
    ∧ (pyStrip line ≠ [] →
        processLine pint pfloat line = Sum.inl SkipReason.unpackFail)
    ∧ (pyStrip line = [] →
        processLine pint pfloat line = Sum.inl SkipReason.commentOrBlank)
    ∧ (loadLines pint pfloat [line] clock).records = [] := by
  set A : Str := f1 ++ DELIMITER :: (f2 ++ DELIMITER :: (f3 ++ DELIMITER ::
    (f4 ++ DELIMITER :: (f5 ++ DELIMITER :: (f6 ++ DELIMITER ::
    (f7 ++ DELIMITER :: f8)))))) with hA
  have hline : line = A ++ (DELIMITER :: f9) := by
    rw [hA]
    conv_lhs => rw [← joinSep_pySplit DELIMITER line, hsplit]
    simp [joinSep]
  have h8 : countSep DELIMITER line = 8 := by
    have hl := length_pySplit DELIMITER line
    rw [hsplit] at hl
    simp at hl
    omega
  have hA7 : countSep DELIMITER A ≤ 7 := by
    rw [hline, countSep_append] at h8
    have hc9 : countSep DELIMITER (DELIMITER :: f9) = 1 + countSep DELIMITER f9 := by
      simp [countSep]
    omega
  have hrs : pyRStrip line = pyRStrip A := by
    rw [hline]
    apply pyRStrip_append_ws
    intro c hc
    rcases List.mem_cons.mp hc with hc | hc
    · subst hc
      rfl
    · exact hws c hc
  have hcount : countSep DELIMITER (pyStrip line) ≤ 7 := by
    have h1 : countSep DELIMITER (pyStrip line)
        ≤ countSep DELIMITER (pyRStrip line) := by
      unfold pyStrip pyLStrip
      exact countSep_dropWhile_le DELIMITER pyIsSpace (pyRStrip line)
    rw [hrs] at h1
    exact le_trans h1 (le_trans (countSep_pyRStrip_le DELIMITER A) hA7)
  have hlen9 : (pySplit DELIMITER (pyStrip line)).length ≠ 9 := by
    rw [length_pySplit]
    omega
  by_cases hne : pyStrip line = []
  · have hp := processLine_commentOrBlank pint pfloat line (Or.inr hne)
    refine ⟨⟨_, hp⟩, fun hcon => absurd hne hcon, fun _ => hp, ?_⟩
    rw [loadLines_records]
    simp [emitOf, hp]
  · have hp := processLine_not9 pint pfloat line hhash hne hlen9
    refine ⟨⟨_, hp⟩, fun _ => hp, fun hcon => absurd hcon hne, ?_⟩
    rw [loadLines_records]
    simp [emitOf, hp]

/-- C9 witness: the amended theorem applied to the concrete line
`a\tb\tc\td\te\tf\tg\th\t`, whose ninth raw field is empty. -/
theorem c9_witness :
    (∃ r, processLine pintD pintD lineC9w = Sum.inl r)
    ∧ (pyStrip lineC9w ≠ [] →
        processLine pintD pintD lineC9w = Sum.inl SkipReason.unpackFail)
    ∧ (pyStrip lineC9w = [] →
        processLine pintD pintD lineC9w = Sum.inl SkipReason.commentOrBlank)
    ∧ (loadLines pintD pintD [lineC9w] zeroClock).records = [] :=
  c9_trailing_whitespace_ninth_field pintD pintD lineC9w "a".toList "b".toList
    "c".toList "d".toList "e".toList "f".toList "g".toList "h".toList []
    zeroClock (by decide) (by decide) (by decide)

/-- C10: the line-counting helper returns at least 1 — exactly 1 for an empty
file — so `file_lines` as a rational is nonzero, and with `count ≥ 1` the
progress ratio `count / file_lines` is nonzero too: neither the ratio
computation nor the time-left division in `load_data`'s loop divides by
zero. -/
theorem c10_progress_divisions_nonzero (lines : List Str) (count : Nat)
    (hc : 1 ≤ count) :
    1 ≤ _inspect_file lines
    ∧ _inspect_file ([] : List Str) = 1
    ∧ ((_inspect_file lines : ℚ) ≠ 0)
    ∧ progressFrac count (_inspect_file lines) ≠ 0 := by
  have h1 : 1 ≤ _inspect_file lines := by
    unfold _inspect_file
    cases lines <;> simp
  have h0 : (_inspect_file lines : ℚ) ≠ 0 := by
    exact_mod_cast Nat.one_le_iff_ne_zero.mp h1
  refine ⟨h1, rfl, h0, ?_⟩
  unfold progressFrac
  exact div_ne_zero (Nat.cast_ne_zero.mpr (by omega)) h0

/-- C10 witness: the theorem applied to the empty file and the first loop
iteration. -/
theorem c10_witness :
    1 ≤ _inspect_file ([] : List Str)
    ∧ _inspect_file ([] : List Str) = 1
    ∧ ((_inspect_file ([] : List Str) : ℚ) ≠ 0)
    ∧ progressFrac 1 (_inspect_file ([] : List Str)) ≠ 0 :=
  c10_progress_divisions_nonzero [] 1 (by decide)
